import Mathlib

/-!
Verification of the FraudSense real-time call session manager and the
fraud-detection alert policy, as shallow Lean embeddings of the source
(the `VideoCall` component and `backend/services/fraudDetection.js`).
-/

namespace FraudSense

/-! ## Fraud-detection alert policy (`fraudDetection.js`) -/

/-- `calculateAlertSeverity(fraudScore, type)` from
`backend/services/fraudDetection.js`: text scores equal to 2 and audio
scores equal to 1 are `high`; everything else is `low`. -/
def calculateAlertSeverity (fraudScore : Int) (analysisType : String) : String :=
  if analysisType == "text" then
    if fraudScore == 2 then "high" else "low"
  else if analysisType == "audio" then
    if fraudScore == 1 then "high" else "low"
  else "low"

/-- `generateAlertMessage(fraudScore, type)` from
`backend/services/fraudDetection.js`. -/
def generateAlertMessage (fraudScore : Int) (analysisType : String) : String :=
  if analysisType == "text" then
    if fraudScore == 2 then "Potential scam detected in conversation"
    else "Normal conversation"
  else if analysisType == "audio" then
    if fraudScore == 1 then "Suspicious audio patterns detected"
    else "Normal audio"
  else "Unknown fraud pattern"

/-! ## Signaling negotiation model (outgoing call after `initializeCall`)

After `initializeCall` finishes on the outgoing side, the connectivity
handle (`peerConnectionRef.current`) exists, the local offer has been set
as local description, no remote description is set, and the buffer
`pendingRemoteIceCandidatesRef.current` is empty.  The inbound socket
events `call-answer` and `ice-candidate` then drive the handlers
`handleCallAnswer` (part_000 lines 306-334) and `handleIceCandidate`
(lines 336-357).  `setRemoteDescription` with an answer succeeds only
while the handle's signaling state is have-local-offer (the Connectivity
Engine rejects an answer in the stable state; the handler catches the
rejection, skipping the flush). -/

/-- Signaling state of the connectivity handle. -/
inductive SigSt where
  | noLocalOffer
  | haveLocalOffer
  | stable
deriving DecidableEq, Repr

/-- The negotiation-relevant slice of the session state: the handle's
signaling state, whether a remote description is set, the pending
candidate buffer, the trace of candidates applied (passed to
`addIceCandidate`) in order, and how many answers were successfully
applied as remote descriptions. -/
structure NegState where
  sig : SigSt
  remoteDescSet : Bool
  pending : List Nat
  applied : List Nat
  answersApplied : Nat
deriving DecidableEq, Repr

/-- Inbound signaling events relevant to negotiation: an ICE candidate
carrying a candidate payload, or a call-answer carrying an answer. -/
inductive NegEvent where
  | candidate (c : Nat)
  | answer
deriving DecidableEq, Repr

/-- `handleIceCandidate` (part_000 lines 336-357), with the connectivity
handle present and `data.candidate` present: if a remote description is
set, apply the candidate immediately; otherwise append it to the pending
buffer. -/
def handleIceCandidate (s : NegState) (c : Nat) : NegState :=
  if s.remoteDescSet then
    { s with applied := s.applied ++ [c] }
  else
    { s with pending := s.pending ++ [c] }

/-- `handleCallAnswer` (part_000 lines 306-334), with the connectivity
handle present and `data.answer` present: attempt
`setRemoteDescription(answer)`.  It succeeds only in the
have-local-offer state; then the buffered candidates are flushed in
order and the buffer is cleared.  In any other state the engine rejects
the answer, the handler catches the error, and nothing changes (the
flush inside the `try` block is skipped). -/
def handleCallAnswer (s : NegState) : NegState :=
  if s.sig = SigSt.haveLocalOffer then
    { sig := SigSt.stable
      remoteDescSet := true
      pending := []
      applied := s.applied ++ s.pending
      answersApplied := s.answersApplied + 1 }
  else s

/-- One inbound signaling event. -/
def negStep (s : NegState) : NegEvent → NegState
  | NegEvent.candidate c => handleIceCandidate s c
  | NegEvent.answer => handleCallAnswer s

/-- A sequence of inbound signaling events, processed in order. -/
def negRun (s : NegState) (evs : List NegEvent) : NegState :=
  evs.foldl negStep s

/-- The state right after `initializeCall` completes for an outgoing
call: local offer set, no remote description, empty buffer, nothing
applied. -/
def initNeg : NegState :=
  { sig := SigSt.haveLocalOffer
    remoteDescSet := false
    pending := []
    applied := []
    answersApplied := 0 }

/-! ## Buffered-candidate flush (`handleCallAnswer`, lines 313-324)

The flush loop applies each buffered candidate inside its own
`try`/`catch`: a failing `addIceCandidate` is logged and the loop moves
on to the next candidate.  We model the Connectivity Engine's
per-candidate outcome by a failure predicate `fails`. -/

/-- Outcome of one `pc.addIceCandidate(new RTCIceCandidate(c))` call,
parameterised by which candidates the engine rejects. -/
def addIceCandidateCall (fails : Nat → Bool) (c : Nat) : Except String Unit :=
  if fails c then Except.error "Error applying buffered ICE candidate" else Except.ok ()

/-- Result of flushing the buffer: which candidates were attempted (in
order) and which errors were logged.  The flush itself returns no error:
every failure is consumed by the per-candidate `catch`. -/
structure FlushResult where
  attempted : List Nat
  errorsLogged : List String
deriving DecidableEq, Repr

/-- The `for (const candidate of pendingRemoteIceCandidatesRef.current)`
loop of `handleCallAnswer` (part_000 lines 316-322): each candidate is
attempted; on error the message is logged and the loop continues. -/
def flushBufferedCandidates (fails : Nat → Bool) : List Nat → FlushResult
  | [] => { attempted := [], errorsLogged := [] }
  | c :: rest =>
    let r := flushBufferedCandidates fails rest
    match addIceCandidateCall fails c with
    | Except.ok _ => { attempted := c :: r.attempted, errorsLogged := r.errorsLogged }
    | Except.error e => { attempted := c :: r.attempted, errorsLogged := e :: r.errorsLogged }

/-! ## Remote track aggregation (`pc.ontrack`, part_000 lines 216-239)

Each `track` event carries a track; the handler lazily creates the
aggregated `MediaStream`, adds the track only if no track with the same
id is already present, publishes the aggregated stream, and marks the
call accepted.  Tracks are identified by their id (a `Nat` here). -/

/-- The aggregation-relevant state: the ids of the tracks in the
aggregated remote stream (in insertion order; `[]` also covers the
not-yet-created stream, which the handler creates on first use) and the
`callAccepted` flag. -/
structure TrackAggState where
  remoteTracks : List Nat
  callAccepted : Bool
deriving DecidableEq, Repr

/-- The `pc.ontrack` handler: dedupe by track id, then set
`callAccepted` to true. -/
def onTrackEvent (s : TrackAggState) (trackId : Nat) : TrackAggState :=
  let exists_ := s.remoteTracks.any (fun t => t == trackId)
  { remoteTracks := if exists_ then s.remoteTracks else s.remoteTracks ++ [trackId]
    callAccepted := true }

/-- A sequence of remote track arrival events. -/
def runTrackEvents (s : TrackAggState) (evs : List Nat) : TrackAggState :=
  evs.foldl onTrackEvent s

/-- State before any remote track arrived: no aggregated stream, call
not accepted. -/
def initTrackAgg : TrackAggState :=
  { remoteTracks := [], callAccepted := false }

/-! ## Mode toggles (`toggleVideo` / `toggleAudio`, part_000 lines 371-389)

`toggleVideo` reads `localStream.getVideoTracks()[0]`; if the stream and
the track exist it flips `track.enabled` in place and publishes the new
value as `isVideoEnabled`; otherwise it does nothing.  `toggleAudio` is
the same over audio tracks and `isAudioEnabled`.  Neither emits any
signaling message (no renegotiation); the second component of the result
is the list of signaling events emitted, always empty. -/

/-- A local media track: its kind (`"video"` or `"audio"`) and its
mutable `enabled` flag. -/
structure MTrack where
  kind : String
  enabled : Bool
deriving DecidableEq, Repr

/-- The toggle-relevant slice of session state. -/
structure ToggleState where
  localStream : Option (List MTrack)
  isVideoEnabled : Bool
  isAudioEnabled : Bool
deriving DecidableEq, Repr

/-- `stream.getVideoTracks()` / `stream.getAudioTracks()`: the tracks of
the given kind, in stream order. -/
def getTracksOfKind (k : String) (ts : List MTrack) : List MTrack :=
  ts.filter (fun t => t.kind == k)

/-- The in-place mutation `track.enabled = !track.enabled` on the first
track of the given kind, seen from the whole stream: every other track
is untouched. -/
def flipFirstOfKind (k : String) : List MTrack → List MTrack
  | [] => []
  | t :: ts =>
    if t.kind == k then { t with enabled := !t.enabled } :: ts
    else t :: flipFirstOfKind k ts

/-- `toggleVideo()` (part_000 lines 371-379). -/
def toggleVideo (s : ToggleState) : ToggleState × List String :=
  match s.localStream with
  | none => (s, [])
  | some ts =>
    match getTracksOfKind "video" ts with
    | [] => (s, [])
    | vt :: _ =>
      ({ s with
          localStream := some (flipFirstOfKind "video" ts)
          isVideoEnabled := !vt.enabled }, [])

/-- `toggleAudio()` (part_000 lines 381-389). -/
def toggleAudio (s : ToggleState) : ToggleState × List String :=
  match s.localStream with
  | none => (s, [])
  | some ts =>
    match getTracksOfKind "audio" ts with
    | [] => (s, [])
    | at_ :: _ =>
      ({ s with
          localStream := some (flipFirstOfKind "audio" ts)
          isAudioEnabled := !at_.enabled }, [])

/-! ## Cleanup / teardown (`cleanup`, part_000 lines 505-583)

`cleanup` is guarded by `hasCleanedUpRef`: the first invocation sets the
flag and runs the teardown steps (each individually wrapped in
`try`/`catch`); later invocations return immediately.  We model the
session refs/state as a record and `cleanup` as a function returning the
new state together with the list of teardown side effects it performed
on the outside world. -/

/-- State of the `MediaRecorder` held by `mediaRecorderRef`. -/
inductive RecState where
  | inactive
  | recording
deriving DecidableEq, Repr

/-- The refs and React state of the `VideoCall` session that `cleanup`
touches.  Handles (peer connection, audio contexts, analysers, recorder)
are identified by numeric ids. -/
structure CallSession where
  hasCleanedUp : Bool
  localStream : Option (List MTrack)
  remoteStream : Option (List Nat)
  peerConnection : Option Nat
  remoteMediaStream : Option (List Nat)
  pendingRemoteIceCandidates : List Nat
  localAudioContext : Option Nat
  remoteAudioContext : Option Nat
  localAnalyser : Option Nat
  remoteAnalyser : Option Nat
  mediaRecorder : Option Nat
  recorderState : RecState
  audioChunks : List Nat
  callAccepted : Bool
  localAudioLevel : Nat
  remoteAudioLevel : Nat
  isRecording : Bool
deriving DecidableEq, Repr

/-- The externally visible teardown side effects of `cleanup`. -/
inductive TeardownEffect where
  | detachRemoteSurface
  | detachLocalSurface
  | stopRecorder (recorder : Nat)
  | stopSendersAndTransceivers (pc : Nat)
  | stopLocalTracks (count : Nat)
  | closePeerConnection (pc : Nat)
  | closeLocalAudioContext (ctx : Nat)
  | closeRemoteAudioContext (ctx : Nat)
deriving DecidableEq, Repr

/-- `stopAudioRecording` (part_000 lines 497-503): stop the recorder and
clear the recording flag only when a recorder exists and is in the
`recording` state; otherwise a no-op. -/
def stopAudioRecording (s : CallSession) : CallSession × List TeardownEffect :=
  match s.mediaRecorder with
  | none => (s, [])
  | some r =>
    if s.recorderState = RecState.recording then
      ({ s with recorderState := RecState.inactive, isRecording := false },
        [TeardownEffect.stopRecorder r])
    else (s, [])

/-- `cleanup` (part_000 lines 505-583).  If the guard flag is already
set, return immediately with no effect.  Otherwise set the flag, detach
the render surfaces, stop any in-progress recording, stop/remove the
senders and transceivers and close the handle if one exists, stop the
local tracks, close the audio contexts, and reset every session field to
its empty/initial value.  Each step runs inside `try`/`catch`, so the
sequence always completes. -/
def cleanup (s : CallSession) : CallSession × List TeardownEffect :=
  if s.hasCleanedUp then (s, [])
  else
    let s1 := { s with hasCleanedUp := true }
    let detachEffects := [TeardownEffect.detachRemoteSurface,
      TeardownEffect.detachLocalSurface]
    let (s2, recEffects) := stopAudioRecording s1
    let senderEffects := match s2.peerConnection with
      | some pc => [TeardownEffect.stopSendersAndTransceivers pc]
      | none => []
    let trackEffects := match s2.localStream with
      | some ts => [TeardownEffect.stopLocalTracks ts.length]
      | none => []
    let closeEffects := match s2.peerConnection with
      | some pc => [TeardownEffect.closePeerConnection pc]
      | none => []
    let ctxEffects :=
      (match s2.localAudioContext with
        | some c => [TeardownEffect.closeLocalAudioContext c]
        | none => []) ++
      (match s2.remoteAudioContext with
        | some c => [TeardownEffect.closeRemoteAudioContext c]
        | none => [])
    ({ hasCleanedUp := true
       localStream := none
       remoteStream := none
       peerConnection := none
       remoteMediaStream := none
       pendingRemoteIceCandidates := []
       localAudioContext := none
       remoteAudioContext := none
       localAnalyser := none
       remoteAnalyser := none
       mediaRecorder := none
       recorderState := RecState.inactive
       audioChunks := []
       callAccepted := false
       localAudioLevel := 0
       remoteAudioLevel := 0
       isRecording := false },
     detachEffects ++ recEffects ++ senderEffects ++ trackEffects
       ++ closeEffects ++ ctxEffects)

/-- `cleanup` invoked `n` times in sequence: the resulting state and all
side effects performed across the `n` invocations. -/
def cleanupTimes : Nat → CallSession → CallSession × List TeardownEffect
  | 0, s => (s, [])
  | n + 1, s =>
    let (s1, e1) := cleanup s
    let (s2, e2) := cleanupTimes n s1
    (s2, e1 ++ e2)

/-! ## Audio chunk emission (`setupAudioRecording`, part_000 lines 440-487)

The `ondataavailable` handler fires once per completed 2-second chunk;
for a chunk of positive size it base64-encodes the payload and emits an
`audio-chunk` message.  We model the emitted message as the literal list
of payload fields (name/value pairs) of the object passed to
`socket.emit('audio-chunk', ...)`. -/

/-- One `dataavailable` event: the blob's size and its base64 encoding
(the part of `reader.result` after the data-URL header). -/
structure BlobEvent where
  size : Nat
  base64 : String
deriving DecidableEq, Repr

/-- The session values the handler closes over: `callData.conversationId`
(possibly absent), `user._id`, `Date.now()` at emission, and the selected
audio format. -/
structure ChunkEmitCfg where
  conversationId : Option String
  userId : String
  now : Nat
  audioFormat : String
deriving DecidableEq, Repr

/-- The object literal passed to `socket.emit('audio-chunk', ...)`
(part_000 lines 468-473), as its ordered field list. -/
def audioChunkPayload (cfg : ChunkEmitCfg) (base64Data : String) :
    List (String × String) :=
  [("conversationId",
      cfg.conversationId.getD ("call_" ++ cfg.userId ++ "_" ++ toString cfg.now)),
   ("audioData", base64Data),
   ("userId", cfg.userId),
   ("format", cfg.audioFormat)]

/-- The messages emitted to the Fraud Analysis Sink for a sequence of
`dataavailable` events: one message per event of positive size, in
order. -/
def emittedAudioChunks (cfg : ChunkEmitCfg) (events : List BlobEvent) :
    List (List (String × String)) :=
  (events.filter (fun e => 0 < e.size)).map
    (fun e => audioChunkPayload cfg e.base64)

/-! ## Relay (TURN) configuration resolution (`initializeCall`, lines 130-185)

`initializeCall` starts from a fixed STUN-only configuration, asks the
backend for a TURN configuration with a 5000 ms timeout, and on timeout
or error falls back to the fixed configuration, augmented with TURN
entries from the static environment variables when both the server and
the secret are configured. -/

/-- One entry of `iceServers`. -/
structure IceServer where
  urls : List String
  username : Option String
  credential : Option String
  credentialType : Option String
deriving DecidableEq, Repr

/-- The resolved `RTCPeerConnection` configuration. -/
structure RtcConfig where
  iceServers : List IceServer
  iceTransportPolicy : Option String
deriving DecidableEq, Repr

/-- The fixed default configuration built at part_000 lines 132-138:
three public Google STUN servers. -/
def defaultIceServers : List IceServer :=
  [{ urls := ["stun:stun.l.google.com:19302"], username := none,
     credential := none, credentialType := none },
   { urls := ["stun:stun1.l.google.com:19302"], username := none,
     credential := none, credentialType := none },
   { urls := ["stun:stun2.l.google.com:19302"], username := none,
     credential := none, credentialType := none }]

/-- The static environment configuration read in the fallback path. -/
structure TurnEnv where
  turnServer : Option String
  turnSecret : Option String
  turnRealm : Option String
  iceRelayOnly : Bool
deriving DecidableEq, Repr

/-- The ack payload of `get-turn-config` as the handler sees it: the
config object may be absent (falsy) and its `iceServers` field may be
absent. -/
structure BackendTurnConfig where
  iceServers : Option (List IceServer)
  iceTransportPolicy : Option String
deriving DecidableEq, Repr

/-- Behaviour of the backend during the request: either an ack arrives
after `elapsedMs` milliseconds carrying `cfg`, or no ack ever arrives. -/
inductive TurnFetch where
  | responded (cfg : Option BackendTurnConfig) (elapsedMs : Nat)
  | noResponse
deriving DecidableEq, Repr

/-- The request timeout set at part_000 line 143. -/
def turnConfigTimeoutMs : Nat := 5000

/-- The promise of part_000 lines 142-148: it resolves with the ack
payload if the ack arrives before the timeout fires, and rejects with
the timeout error otherwise. -/
def getTurnConfig (fetch : TurnFetch) : Except String (Option BackendTurnConfig) :=
  match fetch with
  | TurnFetch.responded cfg elapsedMs =>
    if elapsedMs < turnConfigTimeoutMs then Except.ok cfg
    else Except.error "TURN config timeout"
  | TurnFetch.noResponse => Except.error "TURN config timeout"

/-- The TURN servers pushed in the `catch` branch (lines 158-176): two
entries (udp and tcp transport) when both `VITE_TURN_SERVER` and
`VITE_TURN_SECRET` are configured, none otherwise. -/
def envTurnServers (env : TurnEnv) : List IceServer :=
  match env.turnServer, env.turnSecret with
  | some url, some secret =>
    [{ urls := ["turn:" ++ url ++ "?transport=udp"], username := some "temp-user",
       credential := some secret, credentialType := some "password" },
     { urls := ["turn:" ++ url ++ "?transport=tcp"], username := some "temp-user",
       credential := some secret, credentialType := some "password" }]
  | _, _ => []

/-- The complete configuration-resolution step of `initializeCall`
(lines 130-183): start from the default STUN-only config; on a
successful fetch whose payload carries an `iceServers` field, adopt the
fetched config wholesale; on a fetch failure (timeout or error), keep
the default config and push the static TURN entries; finally force
relay-only transport when `VITE_ICE_RELAY_ONLY` is `'1'`.  The function
is total: the failure path never aborts call setup. -/
def resolveRtcConfig (fetch : TurnFetch) (env : TurnEnv) : RtcConfig :=
  let base : RtcConfig := { iceServers := defaultIceServers, iceTransportPolicy := none }
  let cfg := match getTurnConfig fetch with
    | Except.ok (some bc) =>
      match bc.iceServers with
      | some servers =>
        { iceServers := servers, iceTransportPolicy := bc.iceTransportPolicy }
      | none => base
    | Except.ok none => base
    | Except.error _ =>
      { base with iceServers := base.iceServers ++ envTurnServers env }
  if env.iceRelayOnly then { cfg with iceTransportPolicy := some "relay" } else cfg

/-- Candidates arriving while no remote description is set are appended
to the pending buffer, in order, and nothing is applied. -/
theorem negRun_candidates_buffer (cs : List Nat) (s : NegState)
    (h : s.remoteDescSet = false) :
    negRun s (cs.map NegEvent.candidate) = { s with pending := s.pending ++ cs } := by
  induction cs generalizing s with
  | nil => simp [negRun]
  | cons c cs ih =>
    simp only [List.map_cons, negRun, List.foldl_cons]
    have hstep : negStep s (NegEvent.candidate c) = { s with pending := s.pending ++ [c] } := by
      simp [negStep, handleIceCandidate, h]
    rw [hstep]
    have := ih { s with pending := s.pending ++ [c] } (by simpa using h)
    simp only [negRun] at this
    rw [this]
    simp

/-- Candidates arriving while a remote description is set are applied
immediately, in order. -/
theorem negRun_candidates_apply (cs : List Nat) (s : NegState)
    (h : s.remoteDescSet = true) :
    negRun s (cs.map NegEvent.candidate) = { s with applied := s.applied ++ cs } := by
  induction cs generalizing s with
  | nil => simp [negRun]
  | cons c cs ih =>
    simp only [List.map_cons, negRun, List.foldl_cons]
    have hstep : negStep s (NegEvent.candidate c) = { s with applied := s.applied ++ [c] } := by
      simp [negStep, handleIceCandidate, h]
    rw [hstep]
    have := ih { s with applied := s.applied ++ [c] } (by simpa using h)
    simp only [negRun] at this
    rw [this]
    simp

/-- Applying an answer makes and keeps the signaling state `stable`;
candidates never change it; so `haveLocalOffer` never recurs, and the
count of applied answers stays at most one. -/
theorem negStep_invariant (s : NegState) (e : NegEvent)
    (h1 : s.answersApplied ≤ 1)
    (h2 : s.sig = SigSt.haveLocalOffer → s.answersApplied = 0) :
    (negStep s e).answersApplied ≤ 1 ∧
      ((negStep s e).sig = SigSt.haveLocalOffer → (negStep s e).answersApplied = 0) := by
  cases e with
  | candidate c =>
    simp only [negStep, handleIceCandidate]
    split <;> exact ⟨h1, h2⟩
  | answer =>
    by_cases hsig : s.sig = SigSt.haveLocalOffer
    · simp only [negStep, handleCallAnswer, if_pos hsig]
      refine ⟨by simp [h2 hsig], ?_⟩
      intro hc
      exact absurd hc (by decide)
    · simp only [negStep, handleCallAnswer, if_neg hsig]
      exact ⟨h1, h2⟩

/-- The invariant of `negStep_invariant` carried along any run. -/
theorem negRun_answers_invariant (evs : List NegEvent) (s : NegState)
    (h1 : s.answersApplied ≤ 1)
    (h2 : s.sig = SigSt.haveLocalOffer → s.answersApplied = 0) :
    (negRun s evs).answersApplied ≤ 1 := by
  induction evs generalizing s with
  | nil => simpa [negRun] using h1
  | cons e evs ih =>
    simp only [negRun, List.foldl_cons]
    obtain ⟨g1, g2⟩ := negStep_invariant s e h1 h2
    exact ih (negStep s e) g1 g2

/-- `onTrackEvent` preserves duplicate-freedom of the aggregated
stream. -/
theorem onTrackEvent_nodup (s : TrackAggState) (t : Nat)
    (h : s.remoteTracks.Nodup) : (onTrackEvent s t).remoteTracks.Nodup := by
  simp only [onTrackEvent]
  by_cases hmem : s.remoteTracks.any (fun x => x == t)
  · simpa [hmem] using h
  · have hnot : t ∉ s.remoteTracks := by
      intro hc
      exact hmem (List.any_eq_true.mpr ⟨t, hc, by simp⟩)
    have := List.Nodup.concat hnot h
    simpa [hmem, List.concat_eq_append] using this

/-- Any run from the initial state keeps the aggregated stream free of
duplicate track ids. -/
theorem runTrackEvents_nodup (evs : List Nat) (s : TrackAggState)
    (h : s.remoteTracks.Nodup) : (runTrackEvents s evs).remoteTracks.Nodup := by
  induction evs generalizing s with
  | nil => simpa [runTrackEvents] using h
  | cons e evs ih =>
    simp only [runTrackEvents, List.foldl_cons]
    exact ih (onTrackEvent s e) (onTrackEvent_nodup s e h)

/-- After handling a track event for `t`, the aggregated stream contains
`t`. -/
theorem onTrackEvent_mem (s : TrackAggState) (t : Nat) :
    t ∈ (onTrackEvent s t).remoteTracks := by
  simp only [onTrackEvent]
  by_cases hmem : s.remoteTracks.any (fun x => x == t)
  · simp only [hmem, if_true]
    obtain ⟨x, hx, hxt⟩ := List.any_eq_true.mp hmem
    simp only [beq_iff_eq] at hxt
    exact hxt ▸ hx
  · simp [hmem]

/-- Flipping the first track of a kind twice restores the stream. -/
theorem flipFirstOfKind_flipFirstOfKind (k : String) (ts : List MTrack) :
    flipFirstOfKind k (flipFirstOfKind k ts) = ts := by
  induction ts with
  | nil => rfl
  | cons t ts ih =>
    by_cases h : t.kind == k
    · simp [flipFirstOfKind, h]
    · simp [flipFirstOfKind, h, ih]

/-- Flipping the first track of a kind flips exactly the head of that
kind's track list and leaves the rest of that kind's tracks unchanged. -/
theorem getTracksOfKind_flipFirstOfKind (k : String) (ts : List MTrack)
    (vt : MTrack) (rest : List MTrack)
    (h : getTracksOfKind k ts = vt :: rest) :
    getTracksOfKind k (flipFirstOfKind k ts) =
      { vt with enabled := !vt.enabled } :: rest := by
  induction ts with
  | nil => simp [getTracksOfKind] at h
  | cons t ts ih =>
    cases hk : t.kind == k with
    | true =>
      have h1 : getTracksOfKind k (t :: ts) = t :: getTracksOfKind k ts := by
        simp [getTracksOfKind, hk]
      rw [h1] at h
      obtain ⟨ht, hrest⟩ := List.cons.inj h
      subst ht
      have h2 : flipFirstOfKind k (t :: ts) = { t with enabled := !t.enabled } :: ts := by
        simp [flipFirstOfKind, hk]
      have h4 : getTracksOfKind k ({ t with enabled := !t.enabled } :: ts) =
          { t with enabled := !t.enabled } :: getTracksOfKind k ts := by
        simp [getTracksOfKind, hk]
      rw [h2, h4, hrest]
    | false =>
      have h1 : flipFirstOfKind k (t :: ts) = t :: flipFirstOfKind k ts := by
        simp [flipFirstOfKind, hk]
      have h2 : getTracksOfKind k (t :: flipFirstOfKind k ts) =
          getTracksOfKind k (flipFirstOfKind k ts) := by
        simp [getTracksOfKind, hk]
      have h3 : getTracksOfKind k (t :: ts) = getTracksOfKind k ts := by
        simp [getTracksOfKind, hk]
      rw [h1, h2]
      exact ih (h3 ▸ h)

/-- `toggleVideo` emits no signaling message in any state. -/
theorem toggleVideo_emits_nothing (s : ToggleState) : (toggleVideo s).2 = [] := by
  unfold toggleVideo
  split
  · rfl
  · split <;> rfl

/-- `toggleAudio` emits no signaling message in any state. -/
theorem toggleAudio_emits_nothing (s : ToggleState) : (toggleAudio s).2 = [] := by
  unfold toggleAudio
  split
  · rfl
  · split <;> rfl

/-- `toggleVideo` with no local stream is a no-op. -/
theorem toggleVideo_none (s : ToggleState) (h : s.localStream = none) :
    toggleVideo s = (s, []) := by
  simp [toggleVideo, h]

/-- `toggleAudio` with no local stream is a no-op. -/
theorem toggleAudio_none (s : ToggleState) (h : s.localStream = none) :
    toggleAudio s = (s, []) := by
  simp [toggleAudio, h]

/-- `toggleVideo` with a stream holding no video track is a no-op. -/
theorem toggleVideo_no_track (s : ToggleState) (ts : List MTrack)
    (h : s.localStream = some ts) (h2 : getTracksOfKind "video" ts = []) :
    toggleVideo s = (s, []) := by
  simp [toggleVideo, h, h2]

/-- `toggleAudio` with a stream holding no audio track is a no-op. -/
theorem toggleAudio_no_track (s : ToggleState) (ts : List MTrack)
    (h : s.localStream = some ts) (h2 : getTracksOfKind "audio" ts = []) :
    toggleAudio s = (s, []) := by
  simp [toggleAudio, h, h2]

/-- `toggleVideo` with a first video track: flip it in place and publish
the new enabled value. -/
theorem toggleVideo_some (s : ToggleState) (ts : List MTrack) (vt : MTrack)
    (rest : List MTrack) (h : s.localStream = some ts)
    (h2 : getTracksOfKind "video" ts = vt :: rest) :
    toggleVideo s =
      ({ s with
          localStream := some (flipFirstOfKind "video" ts)
          isVideoEnabled := !vt.enabled }, []) := by
  simp [toggleVideo, h, h2]

/-- `toggleAudio` with a first audio track: flip it in place and publish
the new enabled value. -/
theorem toggleAudio_some (s : ToggleState) (ts : List MTrack) (at_ : MTrack)
    (rest : List MTrack) (h : s.localStream = some ts)
    (h2 : getTracksOfKind "audio" ts = at_ :: rest) :
    toggleAudio s =
      ({ s with
          localStream := some (flipFirstOfKind "audio" ts)
          isAudioEnabled := !at_.enabled }, []) := by
  simp [toggleAudio, h, h2]

/-- Toggling video twice restores the local stream (every track's
enabled flag) to its original value. -/
theorem toggleVideo_twice (s : ToggleState) :
    (toggleVideo (toggleVideo s).1).1.localStream = s.localStream := by
  rcases hls : s.localStream with _ | ts
  · rw [toggleVideo_none s hls]
    rw [show ((s, ([] : List String)).1) = s from rfl, toggleVideo_none s hls]
    exact hls.symm ▸ rfl
  · rcases hvt : getTracksOfKind "video" ts with _ | ⟨vt, rest⟩
    · rw [toggleVideo_no_track s ts hls hvt]
      rw [show ((s, ([] : List String)).1) = s from rfl,
        toggleVideo_no_track s ts hls hvt]
      exact hls
    · rw [toggleVideo_some s ts vt rest hls hvt]
      have hflip := getTracksOfKind_flipFirstOfKind "video" ts vt rest hvt
      rw [toggleVideo_some _ (flipFirstOfKind "video" ts)
        { vt with enabled := !vt.enabled } rest rfl hflip]
      simp [flipFirstOfKind_flipFirstOfKind, hls]

/-- Toggling audio twice restores the local stream (every track's
enabled flag) to its original value. -/
theorem toggleAudio_twice (s : ToggleState) :
    (toggleAudio (toggleAudio s).1).1.localStream = s.localStream := by
  rcases hls : s.localStream with _ | ts
  · rw [toggleAudio_none s hls]
    rw [show ((s, ([] : List String)).1) = s from rfl, toggleAudio_none s hls]
    exact hls.symm ▸ rfl
  · rcases hvt : getTracksOfKind "audio" ts with _ | ⟨at_, rest⟩
    · rw [toggleAudio_no_track s ts hls hvt]
      rw [show ((s, ([] : List String)).1) = s from rfl,
        toggleAudio_no_track s ts hls hvt]
      exact hls
    · rw [toggleAudio_some s ts at_ rest hls hvt]
      have hflip := getTracksOfKind_flipFirstOfKind "audio" ts at_ rest hvt
      rw [toggleAudio_some _ (flipFirstOfKind "audio" ts)
        { at_ with enabled := !at_.enabled } rest rfl hflip]
      simp [flipFirstOfKind_flipFirstOfKind, hls]

end FraudSense

namespace FraudSense

/-- Along any event sequence from the outgoing initial state, as long
as no remote description has been set, nothing has been applied to the
connectivity handle. -/
theorem negRun_no_apply_before_remote (evs : List NegEvent) (s : NegState)
    (h : s.remoteDescSet = false → s.applied = []) :
    (negRun s evs).remoteDescSet = false → (negRun s evs).applied = [] := by
  induction evs generalizing s with
  | nil => simpa [negRun] using h
  | cons e evs ih =>
    simp only [negRun, List.foldl_cons]
    refine ih (negStep s e) ?_
    cases e with
    | candidate c =>
      simp only [negStep, handleIceCandidate]
      by_cases hr : s.remoteDescSet
      · simp [hr]
      · simp only [hr, Bool.false_eq_true, if_false]
        intro _
        simpa using h (by simpa using hr)
    | answer =>
      simp only [negStep, handleCallAnswer]
      by_cases hsig : s.sig = SigSt.haveLocalOffer
      · simp [hsig]
      · simpa [hsig] using h

/-- C1: For every sequence of inbound signaling events, no candidate is
ever applied to the connectivity handle before a remote description has
been set on it; candidates received before the answer are appended to
the pending buffer in arrival order while the applied trace stays empty;
and after the remote description is set the buffer is flushed so that
every buffered candidate appears in the applied trace exactly once, in
its original receipt order (followed by the later-arriving candidates,
applied directly), the buffer ending empty. -/
theorem ice_candidates_buffered_then_flushed_in_order (cs ds : List Nat)
    (evs : List NegEvent) :
    ((negRun initNeg evs).remoteDescSet = false → (negRun initNeg evs).applied = []) ∧
    (negRun initNeg (cs.map NegEvent.candidate)).applied = [] ∧
    (negRun initNeg (cs.map NegEvent.candidate)).pending = cs ∧
    (negRun initNeg (cs.map NegEvent.candidate ++ [NegEvent.answer]
        ++ ds.map NegEvent.candidate)).applied = cs ++ ds ∧
    (negRun initNeg (cs.map NegEvent.candidate ++ [NegEvent.answer]
        ++ ds.map NegEvent.candidate)).pending = [] := by
  refine ⟨negRun_no_apply_before_remote evs initNeg (fun _ => rfl), ?_⟩
  have hbuf := negRun_candidates_buffer cs initNeg (by rfl)
  have hbuf' := hbuf
  simp only [negRun] at hbuf'
  have hmid :
      List.foldl negStep
          (List.foldl negStep initNeg (cs.map NegEvent.candidate)) [NegEvent.answer] =
        { sig := SigSt.stable, remoteDescSet := true, pending := [],
          applied := cs, answersApplied := 1 } := by
    rw [hbuf']
    simp [negStep, handleCallAnswer, initNeg]
  have hfin := negRun_candidates_apply ds
      { sig := SigSt.stable, remoteDescSet := true, pending := [],
        applied := cs, answersApplied := 1 } (by rfl)
  simp only [negRun] at hfin
  refine ⟨?_, ?_, ?_, ?_⟩
  · rw [hbuf]; rfl
  · rw [hbuf]; simp [initNeg]
  · simp only [negRun, List.foldl_append]
    rw [hmid, hfin]
  · simp only [negRun, List.foldl_append]
    rw [hmid, hfin]

/-- Witness for `ice_candidates_buffered_then_flushed_in_order` at a
concrete candidate sequence. -/
theorem ice_candidates_buffered_then_flushed_witness :
    (negRun initNeg [NegEvent.candidate 3]).remoteDescSet = false ∧
    (negRun initNeg [NegEvent.candidate 3]).applied = [] ∧
    (negRun initNeg ([1, 2].map NegEvent.candidate ++ [NegEvent.answer]
        ++ [5].map NegEvent.candidate)).applied = [1, 2] ++ [5] :=
  ⟨by decide,
   (ice_candidates_buffered_then_flushed_in_order [1, 2] [5]
      [NegEvent.candidate 3]).1 (by decide),
   (ice_candidates_buffered_then_flushed_in_order [1, 2] [5]
      [NegEvent.candidate 3]).2.2.2.1⟩

/-- C3: An answer is never processed twice.  From any state in which no
answer has yet been applied (any signaling state, in particular the
outgoing state `initNeg`), every sequence of inbound signaling events —
however many call-answer messages it contains — applies an answer as
remote description at most once; a second answer finds the handle out of
have-local-offer and is rejected, not applied. -/
theorem answer_applied_at_most_once (s : NegState) (evs : List NegEvent)
    (h : s.answersApplied = 0) :
    (negRun s evs).answersApplied ≤ 1 := by
  refine negRun_answers_invariant evs s ?_ ?_
  · omega
  · intro _; exact h

/-- Witness for `answer_applied_at_most_once`: two answers in a row from
the outgoing initial state still apply only one. -/
theorem answer_applied_at_most_once_witness :
    initNeg.answersApplied = 0 ∧
      (negRun initNeg [NegEvent.answer, NegEvent.candidate 7,
        NegEvent.answer]).answersApplied ≤ 1 :=
  ⟨by decide, answer_applied_at_most_once initNeg
    [NegEvent.answer, NegEvent.candidate 7, NegEvent.answer] (by decide)⟩

/-- Re-delivering a track whose id is already aggregated leaves the
aggregated stream unchanged. -/
theorem onTrackEvent_mem_noop (s : TrackAggState) (t : Nat)
    (h : t ∈ s.remoteTracks) : (onTrackEvent s t).remoteTracks = s.remoteTracks := by
  have hany : s.remoteTracks.any (fun x => x == t) = true :=
    List.any_eq_true.mpr ⟨t, h, by simp⟩
  simp [onTrackEvent, hany, h]

/-- A nonempty run of track events leaves the call accepted (the
handler sets the flag on every arrival, so in particular on the
first). -/
theorem runTrackEvents_accepted (evs : List Nat) (s : TrackAggState)
    (h : evs ≠ []) : (runTrackEvents s evs).callAccepted = true := by
  induction evs generalizing s with
  | nil => exact absurd rfl h
  | cons e rest ih =>
    simp only [runTrackEvents, List.foldl_cons]
    cases rest with
    | nil => rfl
    | cons e2 rest2 =>
      exact ih (onTrackEvent s e) (by simp)

/-- C6: For every sequence of remote track arrival events from the
initial state, the aggregated remote stream holds each track identity at
most once; the accepted flag is true from the first arrival on; and
delivering the same track twice more (after any history) still leaves
exactly one entry with that id. -/
theorem remote_tracks_deduplicated (evs : List Nat) (t : Nat)
    (hne : evs ≠ []) :
    (∀ x, (runTrackEvents initTrackAgg evs).remoteTracks.count x ≤ 1) ∧
    (runTrackEvents initTrackAgg evs).callAccepted = true ∧
    (runTrackEvents initTrackAgg (evs ++ [t, t])).remoteTracks.count t = 1 := by
  have hnodup : (runTrackEvents initTrackAgg evs).remoteTracks.Nodup :=
    runTrackEvents_nodup evs initTrackAgg (by simp [initTrackAgg])
  refine ⟨fun x => List.nodup_iff_count_le_one.mp hnodup x, ?_, ?_⟩
  · exact runTrackEvents_accepted evs initTrackAgg hne
  · have hsplit : runTrackEvents initTrackAgg (evs ++ [t, t]) =
        onTrackEvent (onTrackEvent (runTrackEvents initTrackAgg evs) t) t := by
      simp [runTrackEvents, List.foldl_append]
    set s1 := runTrackEvents initTrackAgg evs with hs1
    have h2nodup : (onTrackEvent s1 t).remoteTracks.Nodup :=
      onTrackEvent_nodup s1 t hnodup
    have h2mem : t ∈ (onTrackEvent s1 t).remoteTracks := onTrackEvent_mem s1 t
    have h3 : (onTrackEvent (onTrackEvent s1 t) t).remoteTracks =
        (onTrackEvent s1 t).remoteTracks :=
      onTrackEvent_mem_noop (onTrackEvent s1 t) t h2mem
    rw [hsplit, h3]
    exact List.count_eq_one_of_mem h2nodup h2mem

/-- Witness for `remote_tracks_deduplicated`: a concrete arrival
sequence with a duplicate (ids 4, 9, 4, then 9 twice) yields a
duplicate-free aggregated stream, an accepted call, and exactly one
entry for id 9. -/
theorem remote_tracks_deduplicated_witness :
    ([4, 9, 4] : List Nat) ≠ [] ∧
    (∀ x, (runTrackEvents initTrackAgg [4, 9, 4]).remoteTracks.count x ≤ 1) ∧
    (runTrackEvents initTrackAgg [4, 9, 4]).callAccepted = true ∧
    (runTrackEvents initTrackAgg ([4, 9, 4] ++ [9, 9])).remoteTracks.count 9 = 1 :=
  ⟨by decide, remote_tracks_deduplicated [4, 9, 4] 9 (by decide)⟩

/-- C5: A failing candidate during the flush is absorbed locally: for
every buffer and every set of failing candidates, every candidate is
still attempted, in order — in particular every candidate after a
failing one — the number of logged errors equals the number of failing
candidates, and the flush itself surfaces no error (its result is a
plain record, every `addIceCandidate` error having been consumed by the
per-candidate catch). -/
theorem flush_absorbs_per_candidate_failures (fails : Nat → Bool) (cs : List Nat) :
    (flushBufferedCandidates fails cs).attempted = cs ∧
      (flushBufferedCandidates fails cs).errorsLogged.length =
        (cs.filter fails).length := by
  induction cs with
  | nil => exact ⟨rfl, rfl⟩
  | cons c rest ih =>
    obtain ⟨ha, he⟩ := ih
    by_cases hc : fails c
    · constructor
      · simp [flushBufferedCandidates, addIceCandidateCall, hc, ha]
      · simp [flushBufferedCandidates, addIceCandidateCall, hc, he,
          List.filter_cons]
    · constructor
      · simp [flushBufferedCandidates, addIceCandidateCall, hc, ha]
      · simp [flushBufferedCandidates, addIceCandidateCall, hc, he,
          List.filter_cons]

/-- C7: in every session state, `toggleVideo`/`toggleAudio` emit no
signaling message (no renegotiation); with no local stream, or no track
of the respective kind, they are no-ops returning the state unchanged
and raising nothing; with a first track of the kind they flip exactly
that track's enabled flag (the rest of that kind's tracks unchanged) and
publish the new value; toggling twice restores the stream's enabled
flags to their original values. -/
theorem toggles_flip_first_track_only (s : ToggleState) :
    (toggleVideo s).2 = [] ∧
    (toggleAudio s).2 = [] ∧
    (s.localStream = none → toggleVideo s = (s, []) ∧ toggleAudio s = (s, [])) ∧
    (∀ ts, s.localStream = some ts → getTracksOfKind "video" ts = [] →
      toggleVideo s = (s, [])) ∧
    (∀ ts, s.localStream = some ts → getTracksOfKind "audio" ts = [] →
      toggleAudio s = (s, [])) ∧
    (∀ ts vt rest, s.localStream = some ts →
      getTracksOfKind "video" ts = vt :: rest →
      (toggleVideo s).1 =
        { s with localStream := some (flipFirstOfKind "video" ts),
                 isVideoEnabled := !vt.enabled } ∧
      getTracksOfKind "video" (flipFirstOfKind "video" ts) =
        { vt with enabled := !vt.enabled } :: rest) ∧
    (∀ ts at_ rest, s.localStream = some ts →
      getTracksOfKind "audio" ts = at_ :: rest →
      (toggleAudio s).1 =
        { s with localStream := some (flipFirstOfKind "audio" ts),
                 isAudioEnabled := !at_.enabled } ∧
      getTracksOfKind "audio" (flipFirstOfKind "audio" ts) =
        { at_ with enabled := !at_.enabled } :: rest) ∧
    (toggleVideo (toggleVideo s).1).1.localStream = s.localStream ∧
    (toggleAudio (toggleAudio s).1).1.localStream = s.localStream := by
  refine ⟨toggleVideo_emits_nothing s, toggleAudio_emits_nothing s,
    fun h => ⟨toggleVideo_none s h, toggleAudio_none s h⟩,
    fun ts h h2 => toggleVideo_no_track s ts h h2,
    fun ts h h2 => toggleAudio_no_track s ts h h2,
    fun ts vt rest h h2 => ⟨?_, getTracksOfKind_flipFirstOfKind "video" ts vt rest h2⟩,
    fun ts at_ rest h h2 => ⟨?_, getTracksOfKind_flipFirstOfKind "audio" ts at_ rest h2⟩,
    toggleVideo_twice s, toggleAudio_twice s⟩
  · rw [toggleVideo_some s ts vt rest h h2]
  · rw [toggleAudio_some s ts at_ rest h h2]

/-- Witness for `toggles_flip_first_track_only`: on a stream with an
audio track then a video track, toggling video flips exactly the video
track's flag; on a session with no stream, toggling is a no-op. -/
theorem toggles_flip_first_track_only_witness :
    (getTracksOfKind "video" [⟨"audio", false⟩, ⟨"video", true⟩] =
      [(⟨"video", true⟩ : MTrack)]) ∧
    (toggleVideo ⟨some [⟨"audio", false⟩, ⟨"video", true⟩], true, true⟩).1 =
      (⟨some [⟨"audio", false⟩, ⟨"video", false⟩], false, true⟩ : ToggleState) ∧
    toggleVideo ⟨none, true, true⟩ = (⟨none, true, true⟩, []) := by
  refine ⟨by decide, ?_, ?_⟩
  · have h := ((toggles_flip_first_track_only
      ⟨some [⟨"audio", false⟩, ⟨"video", true⟩], true, true⟩).2.2.2.2.2.1
      [⟨"audio", false⟩, ⟨"video", true⟩] ⟨"video", true⟩ [] rfl (by decide)).1
    rw [h]
    decide
  · exact ((toggles_flip_first_track_only ⟨none, true, true⟩).2.2.1 rfl).1

/-- After any invocation of `cleanup`, the guard flag is set. -/
theorem cleanup_sets_guard (s : CallSession) : ((cleanup s).1).hasCleanedUp = true := by
  by_cases h : s.hasCleanedUp
  · simp [cleanup, h]
  · rcases hrec : stopAudioRecording { s with hasCleanedUp := true } with ⟨s2, e2⟩
    simp [cleanup, h, hrec]

/-- `cleanup` on a session whose guard flag is already set does nothing
and performs no side effect. -/
theorem cleanup_noop (s : CallSession) (h : s.hasCleanedUp = true) :
    cleanup s = (s, []) := by
  simp [cleanup, h]

/-- `cleanupTimes` on an already-cleaned session does nothing. -/
theorem cleanupTimes_noop (n : Nat) (s : CallSession) (h : s.hasCleanedUp = true) :
    cleanupTimes n s = (s, []) := by
  induction n with
  | zero => rfl
  | succ n ih =>
    simp [cleanupTimes, cleanup_noop s h, ih]

/-- C2: `cleanup` is idempotent and safe from every state: it is a total
function of the session state, and for every state and every number
`n ≥ 1` of invocations, all `n` invocations together produce exactly the
state and side effects of the first one alone — each invocation after
the first is a no-op with no side effect — while a genuine first
invocation (guard flag down) does perform teardown side effects. -/
theorem cleanup_idempotent (s : CallSession) (n : Nat) (hn : 1 ≤ n) :
    cleanupTimes n s = cleanup s ∧
    cleanup ((cleanup s).1) = ((cleanup s).1, []) ∧
    (s.hasCleanedUp = false → (cleanup s).2 ≠ []) := by
  refine ⟨?_, cleanup_noop _ (cleanup_sets_guard s), ?_⟩
  · obtain ⟨m, rfl⟩ : ∃ m, n = m + 1 := ⟨n - 1, by omega⟩
    rcases hc : cleanup s with ⟨s1, e1⟩
    have hflag : s1.hasCleanedUp = true := by
      have := cleanup_sets_guard s
      rw [hc] at this
      exact this
    simp only [cleanupTimes, hc, cleanupTimes_noop m s1 hflag, List.append_nil]
  · intro h
    rcases hrec : stopAudioRecording { s with hasCleanedUp := true } with ⟨s2, e2⟩
    simp [cleanup, h, hrec]

/-- Witness for `cleanup_idempotent`: three invocations on a live
session behave as the first alone. -/
theorem cleanup_idempotent_witness :
    (1 : Nat) ≤ 3 ∧
    cleanupTimes 3
        { hasCleanedUp := false, localStream := some [{ kind := "video", enabled := true }],
          remoteStream := some [2], peerConnection := some 1,
          remoteMediaStream := some [2], pendingRemoteIceCandidates := [5],
          localAudioContext := some 3, remoteAudioContext := some 4,
          localAnalyser := some 5, remoteAnalyser := some 6,
          mediaRecorder := some 7, recorderState := RecState.recording,
          audioChunks := [1], callAccepted := true, localAudioLevel := 40,
          remoteAudioLevel := 50, isRecording := true } =
      cleanup
        { hasCleanedUp := false, localStream := some [{ kind := "video", enabled := true }],
          remoteStream := some [2], peerConnection := some 1,
          remoteMediaStream := some [2], pendingRemoteIceCandidates := [5],
          localAudioContext := some 3, remoteAudioContext := some 4,
          localAnalyser := some 5, remoteAnalyser := some 6,
          mediaRecorder := some 7, recorderState := RecState.recording,
          audioChunks := [1], callAccepted := true, localAudioLevel := 40,
          remoteAudioLevel := 50, isRecording := true } :=
  ⟨by decide, (cleanup_idempotent _ 3 (by decide)).1⟩

/-- C9: the first invocation of `cleanup` (guard flag down), from any
prior state, resets every session field to its empty/initial value: no
local stream, no remote stream, no connectivity handle, no aggregated
remote stream, empty candidate buffer, accepted false, audio levels 0,
recording inactive. -/
theorem cleanup_resets_session (s : CallSession) (h : s.hasCleanedUp = false) :
    (cleanup s).1.localStream = none ∧
    (cleanup s).1.remoteStream = none ∧
    (cleanup s).1.peerConnection = none ∧
    (cleanup s).1.remoteMediaStream = none ∧
    (cleanup s).1.pendingRemoteIceCandidates = [] ∧
    (cleanup s).1.callAccepted = false ∧
    (cleanup s).1.localAudioLevel = 0 ∧
    (cleanup s).1.remoteAudioLevel = 0 ∧
    (cleanup s).1.isRecording = false := by
  rcases hrec : stopAudioRecording { s with hasCleanedUp := true } with ⟨s2, e2⟩
  simp [cleanup, h, hrec]

/-- Witness for `cleanup_resets_session`: a fully populated live session
is reset by its first cleanup. -/
theorem cleanup_resets_session_witness :
    ({ hasCleanedUp := false, localStream := some [{ kind := "audio", enabled := true }],
       remoteStream := some [9], peerConnection := some 1,
       remoteMediaStream := some [9], pendingRemoteIceCandidates := [3, 4],
       localAudioContext := some 3, remoteAudioContext := some 4,
       localAnalyser := some 5, remoteAnalyser := some 6,
       mediaRecorder := some 7, recorderState := RecState.recording,
       audioChunks := [8], callAccepted := true, localAudioLevel := 10,
       remoteAudioLevel := 20, isRecording := true } : CallSession).hasCleanedUp = false ∧
    (cleanup
      { hasCleanedUp := false, localStream := some [{ kind := "audio", enabled := true }],
        remoteStream := some [9], peerConnection := some 1,
        remoteMediaStream := some [9], pendingRemoteIceCandidates := [3, 4],
        localAudioContext := some 3, remoteAudioContext := some 4,
        localAnalyser := some 5, remoteAnalyser := some 6,
        mediaRecorder := some 7, recorderState := RecState.recording,
        audioChunks := [8], callAccepted := true, localAudioLevel := 10,
        remoteAudioLevel := 20, isRecording := true }).1.callAccepted = false :=
  ⟨by decide, (cleanup_resets_session _ (by decide)).2.2.2.2.2.1⟩

/-- C4 counterexample: two identical positive-size chunks produce two
identical `audio-chunk` messages carrying exactly the four fields
`conversationId`, `audioData`, `userId`, `format` — no fifth field, so
no sequence index distinguishes the chunk emitted at position 0 from the
one at position 1, contradicting "the k-th emitted chunk is tagged with
sequence index k". -/
theorem audio_chunk_payload_counterexample :
    emittedAudioChunks
        { conversationId := some "c1", userId := "u1", now := 0, audioFormat := "webm" }
        [{ size := 4, base64 := "AAAA" }, { size := 4, base64 := "AAAA" }] =
      [[("conversationId", "c1"), ("audioData", "AAAA"), ("userId", "u1"),
          ("format", "webm")],
       [("conversationId", "c1"), ("audioData", "AAAA"), ("userId", "u1"),
          ("format", "webm")]] := by
  rfl

/-- C4 (amended): every message emitted to the Fraud Analysis Sink
carries exactly the fields `conversationId`, `audioData`, `userId` and
`format` — in particular the conversation id (or its generated
fallback), the user id and the format are those of the session — and one
message is emitted per positive-size chunk; no sequence index field is
included. -/
theorem audio_chunk_payload_fields (cfg : ChunkEmitCfg) (events : List BlobEvent)
    (p : List (String × String)) (hp : p ∈ emittedAudioChunks cfg events) :
    p.map Prod.fst = ["conversationId", "audioData", "userId", "format"] ∧
    p.lookup "conversationId" =
      some (cfg.conversationId.getD ("call_" ++ cfg.userId ++ "_" ++ toString cfg.now)) ∧
    p.lookup "userId" = some cfg.userId ∧
    p.lookup "format" = some cfg.audioFormat ∧
    (emittedAudioChunks cfg events).length =
      (events.filter (fun e => 0 < e.size)).length := by
  obtain ⟨e, _, rfl⟩ := List.mem_map.mp hp
  refine ⟨rfl, ?_, ?_, ?_, ?_⟩
  · simp [audioChunkPayload, List.lookup]
  · simp [audioChunkPayload, List.lookup]
  · simp [audioChunkPayload, List.lookup]
  · simp [emittedAudioChunks]

/-- Witness for `audio_chunk_payload_fields` at a concrete event list. -/
theorem audio_chunk_payload_fields_witness :
    ([("conversationId", "call_u2_7"), ("audioData", "Zm9v"), ("userId", "u2"),
        ("format", "wav")] ∈
      emittedAudioChunks
        { conversationId := none, userId := "u2", now := 7, audioFormat := "wav" }
        [{ size := 0, base64 := "" }, { size := 3, base64 := "Zm9v" }]) ∧
    [("conversationId", "call_u2_7"), ("audioData", "Zm9v"), ("userId", "u2"),
        ("format", "wav")].map Prod.fst =
      ["conversationId", "audioData", "userId", "format"] :=
  ⟨by decide,
   (audio_chunk_payload_fields
      { conversationId := none, userId := "u2", now := 7, audioFormat := "wav" }
      [{ size := 0, base64 := "" }, { size := 3, base64 := "Zm9v" }]
      [("conversationId", "call_u2_7"), ("audioData", "Zm9v"), ("userId", "u2"),
        ("format", "wav")] (by decide)).1⟩

/-- C8: if the relay-configuration request fails (no ack) or does not
respond within the 5000 ms timeout, the request promise rejects and
`initializeCall` resolves the configuration to the locally-known
default: the three fixed public STUN servers, augmented with the
statically configured TURN entries when present.  The resolution is a
total function — the fallback never surfaces an error or blocks call
setup — and the fallback server list is never empty. -/
theorem turn_config_fallback (env : TurnEnv) (cfg : Option BackendTurnConfig)
    (t : Nat) (ht : turnConfigTimeoutMs ≤ t) :
    getTurnConfig (TurnFetch.responded cfg t) = Except.error "TURN config timeout" ∧
    (resolveRtcConfig (TurnFetch.responded cfg t) env).iceServers =
      defaultIceServers ++ envTurnServers env ∧
    (resolveRtcConfig TurnFetch.noResponse env).iceServers =
      defaultIceServers ++ envTurnServers env ∧
    (resolveRtcConfig (TurnFetch.responded cfg t) env).iceServers ≠ [] := by
  have herr : getTurnConfig (TurnFetch.responded cfg t) =
      Except.error "TURN config timeout" := by
    simp [getTurnConfig, Nat.not_lt.mpr ht]
  refine ⟨herr, ?_, ?_, ?_⟩
  · by_cases hr : env.iceRelayOnly <;> simp [resolveRtcConfig, herr, hr]
  · by_cases hr : env.iceRelayOnly <;> simp [resolveRtcConfig, getTurnConfig, hr]
  · by_cases hr : env.iceRelayOnly <;>
      simp [resolveRtcConfig, herr, hr, defaultIceServers]

/-- Witness for `turn_config_fallback`: a response arriving at exactly
the timeout, with static TURN credentials configured. -/
theorem turn_config_fallback_witness :
    turnConfigTimeoutMs ≤ 5000 ∧
    (resolveRtcConfig (TurnFetch.responded none 5000)
        { turnServer := some "turn.example.org", turnSecret := some "s3cret",
          turnRealm := none, iceRelayOnly := false }).iceServers =
      defaultIceServers ++ envTurnServers
        { turnServer := some "turn.example.org", turnSecret := some "s3cret",
          turnRealm := none, iceRelayOnly := false } :=
  ⟨by decide,
   (turn_config_fallback
      { turnServer := some "turn.example.org", turnSecret := some "s3cret",
        turnRealm := none, iceRelayOnly := false } none 5000 (by decide)).2.1⟩

/-- C10: `calculateAlertSeverity` returns `high` exactly for text scores
equal to 2 and audio scores equal to 1, and `low` in every other case —
so score 1 is `high` for audio but `low` for text — and
`generateAlertMessage` partitions scores by the same equality tests. -/
theorem alert_severity_partition (score : Int) (analysisType : String) :
    (calculateAlertSeverity score analysisType = "high" ↔
      (analysisType = "text" ∧ score = 2) ∨ (analysisType = "audio" ∧ score = 1)) ∧
    (calculateAlertSeverity score analysisType = "high" ∨
      calculateAlertSeverity score analysisType = "low") ∧
    (calculateAlertSeverity 1 "audio" = "high" ∧ calculateAlertSeverity 1 "text" = "low") ∧
    (generateAlertMessage score analysisType = "Potential scam detected in conversation" ↔
      (analysisType = "text" ∧ score = 2)) ∧
    (generateAlertMessage score analysisType = "Suspicious audio patterns detected" ↔
      (analysisType = "audio" ∧ score = 1)) := by
  refine ⟨?_, ?_, ⟨by decide, by decide⟩, ?_, ?_⟩ <;>
    · simp only [calculateAlertSeverity, generateAlertMessage]
      split_ifs <;> simp_all

end FraudSense
